import Mathlib

/-!
Verification development for the `ioss-compliance-reporter` repository
(VATpilot): a shallow embedding in Lean 4 of the IOSS compliance
classifier, the order-sync persistence step, the OAuth callback
validation, and the report/CSV generation pipeline, together with
theorems settling the specification claims against the code.

Monetary values are modelled as exact rationals (`ℚ`).  The JavaScript
source compares and combines IEEE-754 doubles; every concrete value used
in this development (country table rates, hundredth-of-a-unit order
values) is exactly representable and the comparisons performed by the
code coincide with the rational ones.  JavaScript falsiness of strings
(`undefined`, `null`, `""`) is modelled by `Option String` with the
empty string falsy.
-/

attribute [local semireducible] Rat.mul Rat.add Rat.sub Rat.inv Rat.ofScientific

namespace VatPilot

/-- JavaScript `a || b` for possibly-absent strings: `a` when it is
present and non-empty (truthy), otherwise `b`. -/
def jsOrS (a b : Option String) : Option String :=
  match a with
  | none => b
  | some s => if s = "" then b else some s

/-- JavaScript truthiness of a possibly-absent string value. -/
def jsTruthy (v : Option String) : Bool :=
  match v with
  | none => false
  | some s => s ≠ ""

/-! ## Jurisdiction membership set (Compliance Classifier)

From `server/models/Order.js` (`orderSchema.pre('save')` middleware) and
`routes/shopify.js` (`calculateIOSSRequirement`): the hard-coded list of
27 EU country codes. -/

/-- The EU country-code list of the pre-save classifier
(`server/models/Order.js`, lines 320-324). -/
def euCountries : List String :=
  ["AT", "BE", "BG", "HR", "CY", "CZ", "DK", "EE", "FI", "FR",
   "DE", "GR", "HU", "IE", "IT", "LV", "LT", "LU", "MT", "NL",
   "PL", "PT", "RO", "SK", "SI", "ES", "SE"]

/-- The order fields read by the pre-save classifier: stored
`customerCountry`, the stored shipping-address `countryCode`, and the
stored `totalPrice`. -/
structure OrderFields where
  customerCountry : Option String
  shippingCountryCode : Option String
  totalPrice : ℚ
deriving DecidableEq

/-- The destination code the classifier tests:
`this.customerCountry || this.shippingAddress?.countryCode`. -/
def classifierDestination (o : OrderFields) : Option String :=
  jsOrS o.customerCountry o.shippingCountryCode

/-- `this.euDestination = euCountries.includes(customerCountry || shippingAddress?.countryCode)`
(`Order.js` line 327).  `includes` of an absent value is `false`. -/
def euDestination (o : OrderFields) : Bool :=
  match classifierDestination o with
  | none => false
  | some c => euCountries.contains c

/-- `this.iossEligible = this.euDestination && this.totalPrice >= 22 && this.totalPrice <= 150`
(`Order.js` line 330). -/
def iossEligible (o : OrderFields) : Bool :=
  euDestination o && decide (22 ≤ o.totalPrice) && decide (o.totalPrice ≤ 150)

/-- `this.vatRequired = this.euDestination && this.totalPrice > 0`
(`Order.js` line 333). -/
def vatRequired (o : OrderFields) : Bool :=
  euDestination o && decide (0 < o.totalPrice)

/-- `calculateIOSSRequirement(order)` from `routes/shopify.js` lines
625-643: same country list and the same inclusive 22-150 bounds, applied
to the raw order's `shipping_address?.country_code` and parsed
`total_price`. -/
def calculateIOSSRequirement (shippingCountry : Option String) (totalValue : ℚ) : Bool :=
  let isEUDestination :=
    match shippingCountry with
    | none => false
    | some c => euCountries.contains c
  let isIOSSValueRange := decide (22 ≤ totalValue) && decide (totalValue ≤ 150)
  isEUDestination && isIOSSValueRange

end VatPilot

namespace VatPilot

/-- C1: for every order whose destination is in the membership set, the
classifier marks it eligible iff its total value lies in the closed
interval [22, 150]; the bounds are inclusive: 22.00 and 150.00 are
eligible, 21.99 and 150.01 are not.  The same holds for the route
helper `calculateIOSSRequirement`. -/
theorem c1_eligible_iff_value_in_range :
    (∀ o : OrderFields, euDestination o = true →
      (iossEligible o = true ↔ 22 ≤ o.totalPrice ∧ o.totalPrice ≤ 150)) ∧
    (∀ c v, euCountries.contains c = true →
      (calculateIOSSRequirement (some c) v = true ↔ 22 ≤ v ∧ v ≤ 150)) ∧
    iossEligible ⟨some "DE", none, mkRat 2199 100⟩ = false ∧
    iossEligible ⟨some "DE", none, 22⟩ = true ∧
    iossEligible ⟨some "DE", none, 150⟩ = true ∧
    iossEligible ⟨some "DE", none, mkRat 15001 100⟩ = false := by
  refine ⟨?_, ?_, by decide, by decide, by decide, by decide⟩
  · intro o h
    simp [iossEligible, h]
  · intro c v h
    have hm : c ∈ euCountries := by simpa using h
    simp [calculateIOSSRequirement, h, hm]

/-- Witness for C1: the order (DE, 50) is in-bloc and eligible. -/
theorem c1_eligible_iff_value_in_range_witness :
    iossEligible ⟨some "DE", none, 50⟩ = true :=
  (c1_eligible_iff_value_in_range.1 ⟨some "DE", none, 50⟩ (by decide)).mpr (by decide)

/-- C3: `iossEligible` implies `euDestination`, `vatRequired` implies
`euDestination`, and whenever the destination code is missing or not in
the 27-member set, all three derived flags are false regardless of the
order's value. -/
theorem c3_flags_imply_in_bloc :
    (∀ o : OrderFields, iossEligible o = true → euDestination o = true) ∧
    (∀ o : OrderFields, vatRequired o = true → euDestination o = true) ∧
    (∀ o : OrderFields,
      (∀ c, classifierDestination o = some c → euCountries.contains c = false) →
      euDestination o = false ∧ iossEligible o = false ∧ vatRequired o = false) := by
  refine ⟨?_, ?_, ?_⟩
  · intro o h
    simp only [iossEligible, Bool.and_assoc, Bool.and_eq_true] at h
    exact h.1
  · intro o h
    simp only [vatRequired, Bool.and_eq_true] at h
    exact h.1
  · intro o h
    have hdest : euDestination o = false := by
      unfold euDestination
      cases hd : classifierDestination o with
      | none => rfl
      | some c => exact h c hd
    exact ⟨hdest, by simp [iossEligible, hdest], by simp [vatRequired, hdest]⟩

/-- Witness for C3: an order destined for the US with an in-range value
has all three flags false, and an eligible DE order is in-bloc. -/
theorem c3_flags_imply_in_bloc_witness :
    (euDestination ⟨some "US", none, 100⟩ = false ∧
      iossEligible ⟨some "US", none, 100⟩ = false ∧
      vatRequired ⟨some "US", none, 100⟩ = false) ∧
    euDestination ⟨some "DE", none, 100⟩ = true := by
  refine ⟨c3_flags_imply_in_bloc.2.2 ⟨some "US", none, 100⟩ ?_,
    c3_flags_imply_in_bloc.1 ⟨some "DE", none, 100⟩ (by decide)⟩
  intro c hc
  have : c = "US" := by
    simpa [classifierDestination, jsOrS] using hc.symm
  subst this
  decide

end VatPilot

namespace VatPilot

/-! ## Sync Engine (`server/services/syncService.js`)

`syncOrders` maps each raw Shopify order into a MongoDB
`updateOne`-with-upsert operation whose `$set` document carries the
transformed scalar fields, line items, shipping address and timestamps,
and submits the batch as one unordered `Order.bulkWrite`.  Mongoose's
`Model.bulkWrite` sends the operations directly to the server: it does
not run the document `pre('save')` middleware, and on an upsert-insert
the fields absent from the `$set` receive their schema defaults (the
three compliance flags default to `false` in `Order.js`).  The model
below reflects exactly that behaviour.  Timestamps are epoch
milliseconds (`Int`). -/

/-- Line item of a raw Shopify order, with the fields the transform in
`syncOrders` reads. -/
structure RawLineItem where
  product_id : Option String
  variant_id : Option String
  title : Option String
  quantity : Option Int
  price : Option ℚ
  vendor : Option String
  origin_country_code : Option String
deriving DecidableEq

/-- Shipping address of a raw Shopify order. -/
structure RawAddress where
  country : Option String
  country_code : Option String
  province : Option String
  city : Option String
  zip : Option String
deriving DecidableEq

/-- A raw remote order as consumed by `syncOrders`.  Numeric strings
already appear here as their parsed values (`parseFloat` /`parseInt`
results), with `none` for absent or non-numeric input. -/
structure RawShopifyOrder where
  id : Nat
  name : Option String
  order_number : Option Nat
  total_price : Option ℚ
  currency : Option String
  email : Option String
  contact_email : Option String
  fulfillment_status : Option String
  financial_status : Option String
  billing_country_code : Option String
  shipping_address : Option RawAddress
  created_at : Int
  updated_at : Int
  line_items : Option (List RawLineItem)
deriving DecidableEq

/-- Stored line item (the `lineItems` sub-document of the Order
schema). -/
structure StoredLineItem where
  productId : Option String
  variantId : Option String
  title : Option String
  quantity : Int
  price : ℚ
  vendor : Option String
  countryOfOrigin : Option String
deriving DecidableEq

/-- Stored shipping-address snapshot. -/
structure StoredAddress where
  country : Option String
  countryCode : Option String
  province : Option String
  city : Option String
  zip : Option String
deriving DecidableEq

/-- A persisted order document (the Order schema of
`server/models/Order.js`, restricted to the persisted fields; virtuals
are not stored). -/
structure StoredOrder where
  shopId : String
  shopifyOrderId : String
  orderNumber : Option String
  totalPrice : ℚ
  currency : String
  customerCountry : Option String
  customerEmail : Option String
  fulfillmentStatus : String
  financialStatus : String
  iossEligible : Bool
  vatRequired : Bool
  euDestination : Bool
  lineItems : List StoredLineItem
  shippingAddress : Option StoredAddress
  shopifyCreatedAt : Int
  shopifyUpdatedAt : Int
  syncedAt : Int
deriving DecidableEq

/-- The `$set` document built for one raw order inside `syncOrders`
(lines 49-95 of `syncService.js`): every field the update writes. -/
structure SetDoc where
  shopId : String
  shopifyOrderId : String
  orderNumber : Option String
  totalPrice : ℚ
  currency : String
  customerCountry : Option String
  customerEmail : Option String
  fulfillmentStatus : String
  financialStatus : String
  lineItems : List StoredLineItem
  shippingAddress : Option StoredAddress
  shopifyCreatedAt : Int
  shopifyUpdatedAt : Int
  syncedAt : Int
deriving DecidableEq

/-- Transform of one line item:
`quantity: parseInt(item.quantity) || 0`, `price: parseFloat(item.price) || 0`. -/
def transformLineItem (it : RawLineItem) : StoredLineItem where
  productId := it.product_id
  variantId := it.variant_id
  title := it.title
  quantity := (it.quantity.filter (· ≠ 0)).getD 0
  price := (it.price.filter (· ≠ 0)).getD 0
  vendor := it.vendor
  countryOfOrigin := it.origin_country_code

/-- Transform of the shipping address sub-document. -/
def transformAddress (a : RawAddress) : StoredAddress where
  country := a.country
  countryCode := a.country_code
  province := a.province
  city := a.city
  zip := a.zip

/-- The `$set` payload `syncOrders` builds for one raw order
(`syncService.js` lines 52-91), evaluated at sync time `now`. -/
def transformOrder (shopId : String) (now : Int) (o : RawShopifyOrder) : SetDoc where
  shopId := shopId
  shopifyOrderId := toString o.id
  orderNumber := jsOrS o.name (o.order_number.map toString)
  totalPrice := (o.total_price.filter (· ≠ 0)).getD 0
  currency := (jsOrS o.currency (some "USD")).getD "USD"
  customerCountry :=
    jsOrS (o.shipping_address.bind (·.country_code)) o.billing_country_code
  customerEmail := jsOrS o.email o.contact_email
  fulfillmentStatus := (jsOrS o.fulfillment_status (some "null")).getD "null"
  financialStatus := (jsOrS o.financial_status (some "pending")).getD "pending"
  lineItems := (o.line_items.getD []).map transformLineItem
  shippingAddress := o.shipping_address.map transformAddress
  shopifyCreatedAt := o.created_at
  shopifyUpdatedAt := o.updated_at
  syncedAt := now

/-- Applying the `$set` of an upsert to an existing document: every
field named in the `$set` is overwritten; fields not named — the three
compliance flags — are untouched. -/
def applySet (o : StoredOrder) (d : SetDoc) : StoredOrder where
  shopId := d.shopId
  shopifyOrderId := d.shopifyOrderId
  orderNumber := d.orderNumber
  totalPrice := d.totalPrice
  currency := d.currency
  customerCountry := d.customerCountry
  customerEmail := d.customerEmail
  fulfillmentStatus := d.fulfillmentStatus
  financialStatus := d.financialStatus
  iossEligible := o.iossEligible
  vatRequired := o.vatRequired
  euDestination := o.euDestination
  lineItems := d.lineItems
  shippingAddress := d.shippingAddress
  shopifyCreatedAt := d.shopifyCreatedAt
  shopifyUpdatedAt := d.shopifyUpdatedAt
  syncedAt := d.syncedAt

/-- The document inserted when the upsert filter matches nothing: the
`$set` fields plus the schema defaults for the fields the `$set` omits
(`iossEligible`, `vatRequired`, `euDestination` default to `false`).
`bulkWrite` runs no `pre('save')` middleware, so the classifier is not
applied here. -/
def insertFromSet (d : SetDoc) : StoredOrder where
  shopId := d.shopId
  shopifyOrderId := d.shopifyOrderId
  orderNumber := d.orderNumber
  totalPrice := d.totalPrice
  currency := d.currency
  customerCountry := d.customerCountry
  customerEmail := d.customerEmail
  fulfillmentStatus := d.fulfillmentStatus
  financialStatus := d.financialStatus
  iossEligible := false
  vatRequired := false
  euDestination := false
  lineItems := d.lineItems
  shippingAddress := d.shippingAddress
  shopifyCreatedAt := d.shopifyCreatedAt
  shopifyUpdatedAt := d.shopifyUpdatedAt
  syncedAt := d.syncedAt

/-- One `updateOne { filter: { shopifyOrderId }, update: { $set }, upsert: true }`
against the order collection: updates the first document matching the
key, or inserts when none matches.  Returns the new collection and
whether an insert (upsert) happened. -/
def upsertOne : List StoredOrder → SetDoc → List StoredOrder × Bool
  | [], d => ([insertFromSet d], true)
  | o :: rest, d =>
    if o.shopifyOrderId = d.shopifyOrderId then
      (applySet o d :: rest, false)
    else
      let r := upsertOne rest d
      (o :: r.1, r.2)

/-- The counters of a `SyncResult`: `processed`, `created`
(`upsertedCount`), `updated` (`modifiedCount`: existing documents whose
content actually changed). -/
structure SyncStats where
  processed : Nat
  created : Nat
  updated : Nat
deriving DecidableEq

/-- `Order.bulkWrite(transformedOrders, { ordered: false })` over a
batch of `$set` documents, counting upserts and modifications. -/
def bulkUpsert (store : List StoredOrder) (docs : List SetDoc) :
    List StoredOrder × SyncStats :=
  match docs with
  | [] => (store, ⟨0, 0, 0⟩)
  | d :: ds =>
    let modified :=
      match store.find? (·.shopifyOrderId = d.shopifyOrderId) with
      | some o => if applySet o d = o then 0 else 1
      | none => 0
    let r := upsertOne store d
    let rest := bulkUpsert r.1 ds
    (rest.1,
     ⟨rest.2.processed + 1,
      rest.2.created + (if r.2 then 1 else 0),
      rest.2.updated + modified⟩)

/-- The transform-and-persist step of `syncOrders` (`syncService.js`
lines 49-105): map each raw order to its `$set` document and bulk-write
the batch. -/
def syncOrders (store : List StoredOrder) (shopId : String) (now : Int)
    (raws : List RawShopifyOrder) : List StoredOrder × SyncStats :=
  bulkUpsert store (raws.map (transformOrder shopId now))

/-- The classifier inputs carried by a stored order: its stored
`customerCountry`, shipping-address `countryCode`, and `totalPrice`. -/
def storedOrderFields (o : StoredOrder) : OrderFields :=
  ⟨o.customerCountry, o.shippingAddress.bind (·.countryCode), o.totalPrice⟩

/-- Whether the collection holds a document with the given remote order
identifier (the unique upsert key). -/
def hasKey (store : List StoredOrder) (k : String) : Bool :=
  store.any (fun o => o.shopifyOrderId = k)

theorem upsertOne_snd_eq_false (store : List StoredOrder) (d : SetDoc)
    (h : hasKey store d.shopifyOrderId = true) : (upsertOne store d).2 = false := by
  induction store with
  | nil => simp [hasKey] at h
  | cons o rest ih =>
    by_cases hk : o.shopifyOrderId = d.shopifyOrderId
    · simp [upsertOne, hk]
    · simp only [hasKey, List.any_cons, Bool.or_eq_true, decide_eq_true_eq] at h
      rcases h with h | h
      · exact absurd h hk
      · simp [upsertOne, hk, ih h]

theorem upsertOne_length (store : List StoredOrder) (d : SetDoc) :
    (upsertOne store d).1.length =
      store.length + (if (upsertOne store d).2 then 1 else 0) := by
  induction store with
  | nil => simp [upsertOne]
  | cons o rest ih =>
    by_cases hk : o.shopifyOrderId = d.shopifyOrderId
    · simp [upsertOne, hk]
    · simp only [upsertOne, hk, if_false, List.length_cons]
      omega

theorem upsertOne_hasKey_self (store : List StoredOrder) (d : SetDoc) :
    hasKey (upsertOne store d).1 d.shopifyOrderId = true := by
  induction store with
  | nil => simp [upsertOne, hasKey, insertFromSet]
  | cons o rest ih =>
    by_cases hk : o.shopifyOrderId = d.shopifyOrderId
    · simp [upsertOne, hk, hasKey, applySet]
    · simp only [upsertOne, hk, if_false]
      simp only [hasKey, List.any_cons, Bool.or_eq_true, decide_eq_true_eq]
      right
      exact ih

theorem upsertOne_hasKey_mono (store : List StoredOrder) (d : SetDoc) (k : String)
    (h : hasKey store k = true) : hasKey (upsertOne store d).1 k = true := by
  induction store with
  | nil => simp [hasKey] at h
  | cons o rest ih =>
    simp only [hasKey, List.any_cons, Bool.or_eq_true, decide_eq_true_eq] at h
    by_cases hk : o.shopifyOrderId = d.shopifyOrderId
    · simp only [upsertOne, hk, if_true]
      simp only [hasKey, List.any_cons, Bool.or_eq_true, decide_eq_true_eq]
      rcases h with h | h
      · left; simpa [applySet] using hk ▸ h
      · right; simpa [hasKey] using h
    · simp only [upsertOne, hk, if_false]
      simp only [hasKey, List.any_cons, Bool.or_eq_true, decide_eq_true_eq]
      rcases h with h | h
      · left; exact h
      · right; simpa [hasKey] using ih h

theorem bulkUpsert_hasKey_mono (docs : List SetDoc) (store : List StoredOrder)
    (k : String) (h : hasKey store k = true) :
    hasKey (bulkUpsert store docs).1 k = true := by
  induction docs generalizing store with
  | nil => simpa [bulkUpsert] using h
  | cons d ds ih =>
    simp only [bulkUpsert]
    exact ih _ (upsertOne_hasKey_mono store d k h)

theorem bulkUpsert_hasKey_of_mem (docs : List SetDoc) (store : List StoredOrder)
    (d : SetDoc) (h : d ∈ docs) :
    hasKey (bulkUpsert store docs).1 d.shopifyOrderId = true := by
  induction docs generalizing store with
  | nil => simp at h
  | cons d0 ds ih =>
    simp only [bulkUpsert]
    rcases List.mem_cons.mp h with rfl | h
    · exact bulkUpsert_hasKey_mono ds _ _ (upsertOne_hasKey_self store d)
    · exact ih _ h

theorem bulkUpsert_stable (docs : List SetDoc) (store : List StoredOrder)
    (h : ∀ d ∈ docs, hasKey store d.shopifyOrderId = true) :
    (bulkUpsert store docs).2.created = 0 ∧
      (bulkUpsert store docs).1.length = store.length := by
  induction docs generalizing store with
  | nil => simp [bulkUpsert]
  | cons d ds ih =>
    have hd : hasKey store d.shopifyOrderId = true := h d (List.mem_cons_self d ds)
    have hcreated : (upsertOne store d).2 = false := upsertOne_snd_eq_false store d hd
    have hlen : (upsertOne store d).1.length = store.length := by
      rw [upsertOne_length, hcreated]; simp
    have hrest : ∀ d2 ∈ ds, hasKey (upsertOne store d).1 d2.shopifyOrderId = true :=
      fun d2 hm => upsertOne_hasKey_mono store d _ (h d2 (List.mem_cons_of_mem d hm))
    have := ih (upsertOne store d).1 hrest
    simp only [bulkUpsert, hcreated]
    exact ⟨by simpa using this.1, by rw [this.2, hlen]⟩

end VatPilot

namespace VatPilot

/-- A concrete raw remote order destined for Germany with total value
50: in the qualifying IOSS range and shipped to an EU destination. -/
def rawOrderDE50 : RawShopifyOrder where
  id := 1001
  name := some "#1001"
  order_number := some 1001
  total_price := some 50
  currency := some "EUR"
  email := some "buyer@example.com"
  contact_email := none
  fulfillment_status := none
  financial_status := some "paid"
  billing_country_code := none
  shipping_address := some ⟨some "Germany", some "DE", none, some "Berlin", some "10115"⟩
  created_at := 1700000000000
  updated_at := 1700000000000
  line_items := some []

/-- C2 (code bug): syncing an in-range EU order through `syncOrders`
persists it with all three compliance flags `false` — `bulkWrite`
bypasses the `pre('save')` classifier and its `$set` writes no flags —
while the classifier applied to the very fields that were stored says
the order is in-bloc, eligible and VAT-liable. -/
theorem c2_sync_skips_classifier :
    ∃ o : StoredOrder,
      (syncOrders [] "shop1" 1700000100000 [rawOrderDE50]).1 = [o] ∧
      o.customerCountry = some "DE" ∧
      o.totalPrice = 50 ∧
      o.euDestination = false ∧ o.iossEligible = false ∧ o.vatRequired = false ∧
      euDestination (storedOrderFields o) = true ∧
      iossEligible (storedOrderFields o) = true ∧
      vatRequired (storedOrderFields o) = true := by
  exact ⟨insertFromSet (transformOrder "shop1" 1700000100000 rawOrderDE50), by decide⟩

/-- C4: re-running the same transform-and-persist batch a second time
creates nothing new — the second run reports `created = 0` and the
number of persisted orders is unchanged (the upserts keyed by
`shopifyOrderId` overwrite instead of duplicating). -/
theorem c4_second_sync_creates_nothing
    (store : List StoredOrder) (shopId : String) (now1 now2 : Int)
    (raws : List RawShopifyOrder) :
    (syncOrders (syncOrders store shopId now1 raws).1 shopId now2 raws).2.created = 0 ∧
    (syncOrders (syncOrders store shopId now1 raws).1 shopId now2 raws).1.length =
      (syncOrders store shopId now1 raws).1.length := by
  apply bulkUpsert_stable
  intro d hd
  rcases List.mem_map.mp hd with ⟨r, hr, rfl⟩
  have : (transformOrder shopId now2 r).shopifyOrderId =
      (transformOrder shopId now1 r).shopifyOrderId := rfl
  rw [this]
  exact bulkUpsert_hasKey_of_mem _ store _
    (List.mem_map.mpr ⟨r, hr, rfl⟩)

end VatPilot

namespace VatPilot

/-! ## Incremental sync floor (`getLastSyncDate` / `incrementalSync`) -/

/-- Maximum of a list of epoch-millisecond timestamps, `none` when
empty. -/
def listMaxInt : List Int → Option Int
  | [] => none
  | t :: ts =>
    match listMaxInt ts with
    | none => some t
    | some m => some (max t m)

/-- `getLastSyncDate(shopId)` (`syncService.js` lines 150-162):
`Order.findOne({ shopId }).sort({ shopifyCreatedAt: -1 })` — the latest
`shopifyCreatedAt` among the persisted orders of that connection, `null`
when there is none.  The `Lead.lastOrderSync` watermark is not read. -/
def getLastSyncDate (store : List StoredOrder) (shopId : String) : Option Int :=
  listMaxInt ((store.filter (fun o => o.shopId = shopId)).map (·.shopifyCreatedAt))

/-- The fetch options of one sync invocation: page limit and the
optional `created_at_min` floor. -/
structure SyncOptions where
  limit : Nat
  createdAtMin : Option Int
deriving DecidableEq

/-- The options `incrementalSync` builds (`syncService.js` lines
171-192): `limit: 100`, plus `createdAtMin` exactly when
`getLastSyncDate` returned a date. -/
def incrementalSyncOptions (store : List StoredOrder) (shopId : String) : SyncOptions :=
  ⟨100, getLastSyncDate store shopId⟩

/-- Modelled from the spec words of claim C5: the floor is "the later of
(a) the Connection's last-sync watermark (lastOrderSync) and (b) the
maximum remoteCreatedAt (shopifyCreatedAt) among already-persisted
orders".  Stated for comparison with the floor the code computes. -/
def specCreatedAfter (lastOrderSync maxPersisted : Option Int) : Option Int :=
  match lastOrderSync, maxPersisted with
  | none, m => m
  | some w, none => some w
  | some w, some m => some (max w m)

theorem listMaxInt_eq_none_iff (l : List Int) : listMaxInt l = none ↔ l = [] := by
  cases l with
  | nil => simp [listMaxInt]
  | cons a as => simp only [listMaxInt]; cases h : listMaxInt as <;> simp

theorem listMaxInt_eq_some_iff (l : List Int) (t : Int) :
    listMaxInt l = some t ↔ t ∈ l ∧ ∀ x ∈ l, x ≤ t := by
  induction l generalizing t with
  | nil => simp [listMaxInt]
  | cons a as ih =>
    cases has : listMaxInt as with
    | none =>
      have hnil : as = [] := (listMaxInt_eq_none_iff as).mp has
      subst hnil
      simp only [listMaxInt, Option.some.injEq, List.mem_cons, List.not_mem_nil,
        or_false, List.mem_singleton, forall_eq]
      constructor
      · rintro rfl; exact ⟨rfl, le_refl a⟩
      · rintro ⟨rfl, _⟩; rfl
    | some m =>
      simp only [listMaxInt, has, Option.some.injEq]
      constructor
      · rintro h
        have hm := (ih m).mp has
        have ht : t = max a m := h.symm
        subst ht
        refine ⟨?_, ?_⟩
        · rcases max_choice a m with hc | hc
          · rw [hc]; exact List.mem_cons_self a as
          · rw [hc]; exact List.mem_cons_of_mem a hm.1
        · intro x hx
          rcases List.mem_cons.mp hx with rfl | hx
          · exact le_max_left _ _
          · exact le_trans (hm.2 x hx) (le_max_right _ _)
      · rintro ⟨hmem, hub⟩
        have hm := (ih m).mp has
        have h1 : a ≤ t := hub a (List.mem_cons_self a as)
        have h2 : m ≤ t := hub m (List.mem_cons_of_mem a hm.1)
        have h3 : t ≤ max a m := by
          rcases List.mem_cons.mp hmem with rfl | hmem
          · exact le_max_left _ _
          · exact le_trans (hm.2 t hmem) (le_max_right _ _)
        exact le_antisymm (max_le h1 h2) h3

/-- A persisted order of connection `shop1` whose remote creation time
is 50, used to exhibit the ignored watermark. -/
def storedOrderAt50 : StoredOrder where
  shopId := "shop1"
  shopifyOrderId := "1"
  orderNumber := some "#1"
  totalPrice := 30
  currency := "EUR"
  customerCountry := some "DE"
  customerEmail := none
  fulfillmentStatus := "null"
  financialStatus := "paid"
  iossEligible := false
  vatRequired := false
  euDestination := false
  lineItems := []
  shippingAddress := none
  shopifyCreatedAt := 50
  shopifyUpdatedAt := 50
  syncedAt := 60

/-- Counterexample to C5 as stated: with a connection whose
`lastOrderSync` watermark is 100 and a single persisted order created at
50, the code's floor is 50 — the maximum persisted `shopifyCreatedAt` —
whereas the claimed "later of watermark and maximum" is 100. -/
theorem c5_watermark_ignored :
    (incrementalSyncOptions [storedOrderAt50] "shop1").createdAtMin = some 50 ∧
    specCreatedAfter (some 100) (getLastSyncDate [storedOrderAt50] "shop1") = some 100 ∧
    (incrementalSyncOptions [storedOrderAt50] "shop1").createdAtMin ≠
      specCreatedAfter (some 100) (getLastSyncDate [storedOrderAt50] "shop1") := by
  refine ⟨by decide, by decide, by decide⟩

/-- C5 amended: the incremental floor is determined solely from the
persisted orders — `createdAfter` is exactly the maximum
`shopifyCreatedAt` among the connection's already-persisted orders (the
Connection's `lastOrderSync` watermark is never consulted), the page
limit is 100, and when no prior orders exist no floor is passed, so the
run behaves like a bounded full sync. -/
theorem c5_floor_is_max_persisted :
    (∀ store shopId, incrementalSyncOptions store shopId =
      ⟨100, getLastSyncDate store shopId⟩) ∧
    (∀ store shopId t, getLastSyncDate store shopId = some t ↔
      (∃ o ∈ store, o.shopId = shopId ∧ o.shopifyCreatedAt = t) ∧
      ∀ o ∈ store, o.shopId = shopId → o.shopifyCreatedAt ≤ t) ∧
    (∀ store shopId, getLastSyncDate store shopId = none ↔
      ∀ o ∈ store, o.shopId ≠ shopId) := by
  refine ⟨fun _ _ => rfl, ?_, ?_⟩
  · intro store shopId t
    unfold getLastSyncDate
    rw [listMaxInt_eq_some_iff]
    constructor
    · rintro ⟨hmem, hub⟩
      rcases List.mem_map.mp hmem with ⟨o, ho, rfl⟩
      have ho2 := List.mem_filter.mp ho
      refine ⟨⟨o, ho2.1, by simpa using ho2.2, rfl⟩, ?_⟩
      intro o2 ho2m hsid
      exact hub _ (List.mem_map.mpr ⟨o2, List.mem_filter.mpr ⟨ho2m, by simpa using hsid⟩, rfl⟩)
    · rintro ⟨⟨o, ho, hsid, rfl⟩, hub⟩
      refine ⟨List.mem_map.mpr ⟨o, List.mem_filter.mpr ⟨ho, by simpa using hsid⟩, rfl⟩, ?_⟩
      intro x hx
      rcases List.mem_map.mp hx with ⟨o2, ho2, rfl⟩
      have ho22 := List.mem_filter.mp ho2
      exact hub o2 ho22.1 (by simpa using ho22.2)
  · intro store shopId
    unfold getLastSyncDate
    rw [listMaxInt_eq_none_iff]
    simp [List.filter_eq_nil_iff, List.map_eq_nil_iff]

end VatPilot

namespace VatPilot

/-! ## OAuth callback validation (`server/services/shopify.js`,
`handleOAuthCallback`, lines 69-91)

The callback query is an association list of parameter names to values
(JavaScript object: unique keys in insertion order).  The HMAC-SHA256
hex digest itself is cryptographic I/O-free code outside the repository;
it is abstracted as a function `hmacHex` from key and message to digest
string.  The model covers the validation prefix of
`handleOAuthCallback` — parameter presence and signature comparison —
which is what claim C6 is about; the subsequent token exchange is a
network call. -/

/-- Code-unit lexicographic comparison of character lists (the order
`Array.prototype.sort()` applies to ASCII key strings). -/
def lexLe : List Char → List Char → Bool
  | [], _ => true
  | _ :: _, [] => false
  | a :: as, b :: bs =>
    if a.toNat < b.toNat then true
    else if b.toNat < a.toNat then false
    else lexLe as bs

/-- JavaScript default string sort order on two strings. -/
def jsStrLe (a b : String) : Bool := lexLe a.data b.data

/-- First value bound to a key in the query object. -/
def getParam (q : List (String × String)) (k : String) : Option String :=
  (q.find? (fun p => p.1 = k)).map (·.2)

/-- Sort order on query parameters: by key, in JavaScript string
order. -/
def pairKeyLe (p1 p2 : String × String) : Prop := jsStrLe p1.1 p2.1 = true

instance : DecidableRel pairKeyLe := fun p1 p2 => by
  unfold pairKeyLe; infer_instance

/-- `Object.keys(query).sort().map(key => key + "=" + query[key]).join("&")`
after `delete query.hmac`: the canonical message the code recomputes the
signature over — every parameter except the signature itself, sorted by
key.  (A JavaScript object has unique keys, so any sorting algorithm
yields the same result; a structurally recursive sort is used.) -/
def canonicalQueryString (q : List (String × String)) : String :=
  String.intercalate "&"
    ((List.insertionSort pairKeyLe (q.filter (fun p => p.1 ≠ "hmac"))).map
      (fun p => p.1 ++ "=" ++ p.2))

/-- The two validation failures of `handleOAuthCallback` before the
token exchange. -/
inductive CallbackError where
  | missingParams
  | hmacMismatch
deriving DecidableEq

instance : DecidableEq (Except CallbackError Unit) := fun a b =>
  match a, b with
  | .ok (), .ok () => isTrue rfl
  | .ok (), .error _ => isFalse (fun h => by cases h)
  | .error _, .ok () => isFalse (fun h => by cases h)
  | .error e1, .error e2 =>
    match decEq e1 e2 with
    | isTrue h => isTrue (by rw [h])
    | isFalse h => isFalse (fun hh => by cases hh; exact h rfl)

/-- The validation prefix of `handleOAuthCallback`: requires truthy
`code`, `shop` and `state` (the `hmac` parameter is not checked for
presence); then compares the recomputed hex digest, keyed by the client
secret, against the supplied `hmac` with strict string equality. -/
def handleOAuthCallbackValidation (hmacHex : String → String → String)
    (secret : String) (q : List (String × String)) : Except CallbackError Unit :=
  if !(jsTruthy (getParam q "code") && jsTruthy (getParam q "shop")
      && jsTruthy (getParam q "state")) then
    .error .missingParams
  else
    let calculatedHmac := hmacHex secret (canonicalQueryString q)
    if getParam q "hmac" = some calculatedHmac then
      .ok ()
    else
      .error .hmacMismatch

/-- A callback query carrying `code`, `shop` and `state` but no `hmac`
parameter. -/
def queryNoHmac : List (String × String) :=
  [("code", "authcode"), ("shop", "x.myshopify.com"), ("state", "st")]

/-- An arbitrary concrete digest function used to evaluate the
validation at a concrete input. -/
def constHmacHex : String → String → String := fun _ _ => "00ff"

/-- Counterexample to C6 as stated: a callback with `code`, `shop` and
`state` present but `hmac` absent is rejected as a signature mismatch,
not as a missing parameter — presence of `hmac` is never checked, and
the recomputed hex digest can never equal an absent value. -/
theorem c6_missing_hmac_is_mismatch :
    handleOAuthCallbackValidation constHmacHex "secret" queryNoHmac =
      .error .hmacMismatch ∧
    handleOAuthCallbackValidation constHmacHex "secret" queryNoHmac ≠
      .error .missingParams := by
  refine ⟨by decide, by decide⟩

/-- C6 amended: the validation fails with the missing-parameter error
exactly when `code`, `shop` or `state` is absent or empty (`hmac` is not
among the required parameters), and otherwise fails with the
signature-mismatch error exactly when the supplied `hmac` — possibly
absent — differs from the hex digest recomputed with the client secret
over all parameters except the signature itself. -/
theorem c6_validation_errors (hmacHex : String → String → String)
    (secret : String) (q : List (String × String)) :
    (handleOAuthCallbackValidation hmacHex secret q = .error .missingParams ↔
      ¬(jsTruthy (getParam q "code") = true ∧ jsTruthy (getParam q "shop") = true ∧
        jsTruthy (getParam q "state") = true)) ∧
    (handleOAuthCallbackValidation hmacHex secret q = .error .hmacMismatch ↔
      (jsTruthy (getParam q "code") = true ∧ jsTruthy (getParam q "shop") = true ∧
        jsTruthy (getParam q "state") = true) ∧
      getParam q "hmac" ≠ some (hmacHex secret (canonicalQueryString q))) := by
  unfold handleOAuthCallbackValidation
  by_cases h : jsTruthy (getParam q "code") = true ∧ jsTruthy (getParam q "shop") = true ∧
      jsTruthy (getParam q "state") = true
  · rcases h with ⟨h1, h2, h3⟩
    simp only [h1, h2, h3, Bool.and_self, Bool.not_true, Bool.false_eq_true, if_false]
    by_cases hh : getParam q "hmac" = some (hmacHex secret (canonicalQueryString q))
    · simp [hh]
    · simp [hh]
  · have hb : (jsTruthy (getParam q "code") && jsTruthy (getParam q "shop")
        && jsTruthy (getParam q "state")) = false := by
      by_contra hc
      rw [Bool.not_eq_false, Bool.and_eq_true, Bool.and_eq_true] at hc
      exact h ⟨hc.1.1, hc.1.2, hc.2⟩
    simp [hb, h]

end VatPilot





namespace VatPilot

/-! ## OAuth state token freshness (`routes/shopify.js`,
`router.get('/callback')`, lines 417-444)

The route decodes the state token with
`JSON.parse(Buffer.from(query.state, 'base64').toString())` inside a
`try`/`catch`; a token that cannot be decoded as base64 JSON is the
`none` case below.  A decoded token carries the fields the `/auth` route
embedded: `nonce`, optional `leadId`, and `timestamp` (epoch
milliseconds). -/

/-- The decoded OAuth state payload built by the `/auth` route. -/
structure StateData where
  nonce : String
  leadId : Option String
  timestamp : Int
deriving DecidableEq

/-- Outcome of the state validation in the callback route. -/
inductive StateCheck where
  | invalidState
  | expiredState
  | ok (d : StateData)
deriving DecidableEq

/-- The state validation of the callback route: malformed tokens are
rejected as invalid; otherwise the token is rejected as expired exactly
when `Date.now() - stateData.timestamp > 10 * 60 * 1000`. -/
def checkState (decoded : Option StateData) (now : Int) : StateCheck :=
  match decoded with
  | none => .invalidState
  | some d => if now - d.timestamp > 10 * 60 * 1000 then .expiredState else .ok d

/-- C7: a decodable state token is rejected as expired exactly when its
age exceeds the fixed 10-minute window; a 9-minute-old token is
accepted; an undecodable token is rejected as invalid. -/
theorem c7_state_expiry :
    (∀ (d : StateData) (now : Int),
      checkState (some d) now = .expiredState ↔ now - d.timestamp > 10 * 60 * 1000) ∧
    (∀ (d : StateData) (now : Int),
      now - d.timestamp = 9 * 60 * 1000 → checkState (some d) now = .ok d) ∧
    (∀ now : Int, checkState none now = .invalidState) := by
  refine ⟨?_, ?_, fun _ => rfl⟩
  · intro d now
    have hred : checkState (some d) now =
        if now - d.timestamp > 10 * 60 * 1000 then .expiredState else .ok d := rfl
    rw [hred]
    by_cases h : now - d.timestamp > 10 * 60 * 1000
    · rw [if_pos h]
      exact ⟨fun _ => h, fun _ => rfl⟩
    · rw [if_neg h]
      constructor
      · intro hh; cases hh
      · intro hh; exact absurd hh h
  · intro d now h
    have hred : checkState (some d) now =
        if now - d.timestamp > 10 * 60 * 1000 then .expiredState else .ok d := rfl
    rw [hred, if_neg (by omega)]

/-- Witness for C7: a token issued at time 0 and checked at 9 minutes is
accepted. -/
theorem c7_state_expiry_witness :
    checkState (some ⟨"nonce", none, 0⟩) (9 * 60 * 1000) = .ok ⟨"nonce", none, 0⟩ :=
  c7_state_expiry.2.1 ⟨"nonce", none, 0⟩ (9 * 60 * 1000) (by decide)

end VatPilot

namespace VatPilot

/-! ## VAT Rate Table and report filters
(`server/controllers/reportController.js` and the report generator
script `generate-ioss-report.js`)

Both files define the identical `EU_VAT_RATES` object (standard rates as
of 2025); it is embedded once.  The only non-integer rate is Finland's
25.5. -/

/-- `EU_VAT_RATES`: jurisdiction code to standard VAT percentage, in the
source's key order. -/
def EU_VAT_RATES : List (String × ℚ) :=
  [("AT", 20), ("BE", 21), ("BG", 20), ("CY", 19), ("CZ", 21), ("DE", 19),
   ("DK", 25), ("EE", 22), ("ES", 21), ("FI", mkRat 51 2), ("FR", 20),
   ("GR", 24), ("HR", 25), ("HU", 27), ("IE", 23), ("IT", 22), ("LT", 21),
   ("LU", 17), ("LV", 21), ("MT", 18), ("NL", 21), ("PL", 23), ("PT", 23),
   ("RO", 19), ("SE", 25), ("SI", 22), ("SK", 20)]

/-- `EU_COUNTRIES = Object.keys(EU_VAT_RATES)`. -/
def EU_COUNTRIES : List String := EU_VAT_RATES.map (·.1)

/-- `DEFAULT_VAT_RATE = 20` (fallback for countries missing from the
table). -/
def DEFAULT_VAT_RATE : ℚ := 20

/-- `parseFloat(x.toFixed(2))`: round to 2 decimal places, half away
from zero.  Every value this development feeds it is a non-negative
exact multiple of 1/100 times at most a handful of exact decimal
operands, for which the IEEE-754 `toFixed` agrees with exact half-up
rounding. -/
def round2 (q : ℚ) : ℚ := mkRat (q * 100 + mkRat 1 2).floor 100

/-- `getVATRate(countryCode)` / `EU_VAT_RATES[country] || 20`: table
lookup with the JavaScript falsy fallback (a 0 rate would also fall
back; no table rate is 0). -/
def getVATRate (countryCode : String) : ℚ :=
  match (EU_VAT_RATES.find? (fun p => p.1 = countryCode)).map (·.2) with
  | none => DEFAULT_VAT_RATE
  | some r => if r = 0 then DEFAULT_VAT_RATE else r

/-- `calculateVATAmount(taxableAmount, vatRate)` from
`generate-ioss-report.js` lines 94-96: tax as a straight percentage of a
tax-exclusive value, rounded to 2 decimals. -/
def calculateVATAmount (taxableAmount vatRate : ℚ) : ℚ :=
  round2 (taxableAmount * vatRate / 100)

/-- The per-country VAT extraction of `processIOSSOrders`
(`reportController.js` lines 170-184): the stored total is treated as
tax-inclusive, `netValue = total / (1 + rate/100)` and
`vatAmount = total - netValue`, rounded to 2 decimals at row
construction. -/
def processIOSSOrdersVATAmount (totalValue vatRate : ℚ) : ℚ :=
  round2 (totalValue - totalValue / (1 + vatRate / 100))

end VatPilot

namespace VatPilot

/-- C9: the two VAT-extraction conventions in the repository are not
extensionally equal — there is an order total v > 0 and a rate r > 0 on
which the tax-inclusive back-out of `processIOSSOrders` and the
straight percentage of `calculateVATAmount` disagree. -/
theorem c9_vat_conventions_differ :
    ∃ v r : ℚ, 0 < v ∧ 0 < r ∧
      processIOSSOrdersVATAmount v r ≠ calculateVATAmount v r :=
  ⟨119, 19, by decide, by decide, by decide⟩

/-- The filter of the `Order.find` query issued by `generateUserReport`
(`reportController.js` lines 71-76): stored `customerCountry` in
`EU_COUNTRIES` and stored `totalPrice` in the closed interval
[22, 150].  No stored flag appears in the query. -/
def generateUserReportIncludes (o : StoredOrder) : Bool :=
  (match o.customerCountry with
   | none => false
   | some c => EU_COUNTRIES.contains c)
  && decide (22 ≤ o.totalPrice) && decide (o.totalPrice ≤ 150)

/-- C10: an order enters the real-data report exactly when its stored
country is one of the 27 rate-table codes and its stored total lies in
[22, 150]; the stored `iossEligible` flag (and the other two derived
flags) are never consulted — the predicate is insensitive to them. -/
theorem c10_report_membership :
    (∀ o : StoredOrder, generateUserReportIncludes o = true ↔
      (∃ c, o.customerCountry = some c ∧ c ∈ EU_COUNTRIES) ∧
      22 ≤ o.totalPrice ∧ o.totalPrice ≤ 150) ∧
    (∀ (o : StoredOrder) (b1 b2 b3 : Bool),
      generateUserReportIncludes
        { o with iossEligible := b1, vatRequired := b2, euDestination := b3 } =
      generateUserReportIncludes o) := by
  constructor
  · intro o
    unfold generateUserReportIncludes
    cases hc : o.customerCountry with
    | none =>
      simp
    | some c =>
      simp only [Bool.and_eq_true, decide_eq_true_eq, List.elem_iff]
      constructor
      · rintro ⟨⟨hm, h1⟩, h2⟩
        exact ⟨⟨c, rfl, by simpa using hm⟩, h1, h2⟩
      · rintro ⟨⟨c2, hc2, hm⟩, h1, h2⟩
        cases hc2
        exact ⟨⟨by simpa using hm, h1⟩, h2⟩
  · intro o b1 b2 b3
    rfl

end VatPilot

namespace VatPilot

theorem lexLe_cons_iff (x y : Char) (xs ys : List Char) :
    lexLe (x :: xs) (y :: ys) = true ↔
      x.toNat < y.toNat ∨ (x.toNat = y.toNat ∧ lexLe xs ys = true) := by
  show (if x.toNat < y.toNat then true
    else if y.toNat < x.toNat then false else lexLe xs ys) = true ↔ _
  by_cases h1 : x.toNat < y.toNat
  · simp [h1]
  · by_cases h2 : y.toNat < x.toNat
    · simp [h1, h2]; omega
    · have he : x.toNat = y.toNat := by omega
      simp [h1, h2, he]

theorem lexLe_total (a b : List Char) : lexLe a b = true ∨ lexLe b a = true := by
  induction a generalizing b with
  | nil => left; rfl
  | cons x xs ih =>
    cases b with
    | nil => right; rfl
    | cons y ys =>
      rcases Nat.lt_trichotomy x.toNat y.toNat with h | h | h
      · left; exact (lexLe_cons_iff x y xs ys).mpr (Or.inl h)
      · rcases ih ys with hr | hr
        · left; exact (lexLe_cons_iff x y xs ys).mpr (Or.inr ⟨h, hr⟩)
        · right; exact (lexLe_cons_iff y x ys xs).mpr (Or.inr ⟨h.symm, hr⟩)
      · right; exact (lexLe_cons_iff y x ys xs).mpr (Or.inl h)

theorem lexLe_trans (a b c : List Char) (h1 : lexLe a b = true)
    (h2 : lexLe b c = true) : lexLe a c = true := by
  induction a generalizing b c with
  | nil => rfl
  | cons x xs ih =>
    cases b with
    | nil => simp [lexLe] at h1
    | cons y ys =>
      cases c with
      | nil => simp [lexLe] at h2
      | cons z zs =>
        rw [lexLe_cons_iff] at h1 h2 ⊢
        rcases h1 with h1 | ⟨h1e, h1r⟩
        · rcases h2 with h2 | ⟨h2e, _⟩
          · exact Or.inl (Nat.lt_trans h1 h2)
          · exact Or.inl (h2e ▸ h1)
        · rcases h2 with h2 | ⟨h2e, h2r⟩
          · exact Or.inl (h1e ▸ h2)
          · exact Or.inr ⟨h1e.trans h2e, ih ys zs h1r h2r⟩

theorem jsStrLe_total (a b : String) : jsStrLe a b = true ∨ jsStrLe b a = true :=
  lexLe_total a.data b.data

theorem jsStrLe_trans (a b c : String) (h1 : jsStrLe a b = true)
    (h2 : jsStrLe b c = true) : jsStrLe a c = true :=
  lexLe_trans a.data b.data c.data h1 h2

end VatPilot

namespace VatPilot

/-! ## Report generator (`generate-ioss-report.js`)

The script filters IOSS-eligible synthetic orders, aggregates them by
member state in object-key insertion order, rounds, sorts by member
state (`localeCompare`, which on two-letter uppercase ASCII codes is
code-unit order), and renders a CSV through `json2csv` — which
double-quotes string cells and headers and leaves numbers bare — after
prepending a five-line `#` comment preamble.  JavaScript numbers
serialize without trailing fractional zeros; `jsNumToString` models that
printing for exact multiples of 1/100, which covers every rate and
2-decimal-rounded amount the pipeline produces. -/

/-- JavaScript `String(n)` for a number that is an exact multiple of
0.01: no decimal point for integers, no trailing zero in the second
decimal place. -/
def jsNumToString (q : ℚ) : String :=
  let n : Int := (q * 100 + mkRat 1 2).floor
  let sign := if n < 0 then "-" else ""
  let m := n.natAbs
  let ip := m / 100
  let fp := m % 100
  if fp = 0 then sign ++ toString ip
  else if fp % 10 = 0 then sign ++ toString ip ++ "." ++ toString (fp / 10)
  else if fp < 10 then sign ++ toString ip ++ ".0" ++ toString fp
  else sign ++ toString ip ++ "." ++ toString fp

/-- An entry of `data/dummy_orders.json` as read by the report
generator. -/
structure SynOrder where
  order_id : String
  origin_country : String
  customer_country : String
  order_value_eur : ℚ
deriving DecidableEq

/-- `isIOSSEligible(order)` (`generate-ioss-report.js` lines 65-77):
non-EU origin, EU destination, and value within the closed interval
[22, 150]. -/
def isIOSSEligible (o : SynOrder) : Bool :=
  !(EU_COUNTRIES.contains o.origin_country)
  && EU_COUNTRIES.contains o.customer_country
  && (decide (22 ≤ o.order_value_eur) && decide (o.order_value_eur ≤ 150))

/-- The running per-country aggregation record of
`processOrdersForIOSS` (step 2). -/
structure CountryAgg where
  memberState : String
  vatRate : ℚ
  taxableAmount : ℚ
  vatAmount : ℚ
  orderCount : Nat
deriving DecidableEq

/-- One iteration of the aggregation loop: initialize the country's
record if absent, then add the order's taxable value, its rounded VAT
amount, and bump the count. -/
def addOrderToAgg (acc : List CountryAgg) (o : SynOrder) : List CountryAgg :=
  let memberState := o.customer_country
  let vatRate := getVATRate memberState
  let vatAmount := calculateVATAmount o.order_value_eur vatRate
  let acc2 :=
    if acc.any (fun c => c.memberState = memberState) then acc
    else acc ++ [⟨memberState, vatRate, 0, 0, 0⟩]
  acc2.map (fun c =>
    if c.memberState = memberState then
      { c with taxableAmount := c.taxableAmount + o.order_value_eur,
               vatAmount := c.vatAmount + vatAmount,
               orderCount := c.orderCount + 1 }
    else c)

/-- A row of the aggregated report data (step 3): member state, rate as
a percentage string, amounts rounded to 2 decimals, plus the
internal-only order count. -/
structure AggRow where
  memberState : String
  vatRateStr : String
  taxableAmount : ℚ
  vatAmount : ℚ
  orderCount : Nat
deriving DecidableEq

/-- Step 3 row construction: `'VAT Rate': country.vatRate + "%"` and
`parseFloat(x.toFixed(2))` on both amounts. -/
def toAggRow (c : CountryAgg) : AggRow :=
  ⟨c.memberState, jsNumToString c.vatRate ++ "%",
    round2 c.taxableAmount, round2 c.vatAmount, c.orderCount⟩

/-- The sort order of the final rows:
`(a, b) => a['Member State'].localeCompare(b['Member State'])`,
ascending. -/
def rowLe (a b : AggRow) : Prop := jsStrLe a.memberState b.memberState = true

instance : DecidableRel rowLe := fun a b => by
  unfold rowLe; infer_instance

instance : IsTotal AggRow rowLe :=
  ⟨fun a b => jsStrLe_total a.memberState b.memberState⟩

instance : IsTrans AggRow rowLe :=
  ⟨fun a b c => jsStrLe_trans a.memberState b.memberState c.memberState⟩

/-- `processOrdersForIOSS(orders)` (`generate-ioss-report.js` lines
103-173, data part): filter eligible orders, aggregate by country in
first-seen order, convert to rows, sort by member state ascending.
(Member states are pairwise distinct after aggregation, so the choice of
sorting algorithm does not matter; a structurally recursive sort is
used.) -/
def processOrdersForIOSS (orders : List SynOrder) : List AggRow :=
  let iossEligibleOrders := orders.filter isIOSSEligible
  let countryAggregation := iossEligibleOrders.foldl addOrderToAgg []
  List.insertionSort rowLe (countryAggregation.map toAggRow)

/-- `json2csv` cell quoting with the configured `quote: '"'`: string
cells and header names are wrapped in double quotes (none of the
pipeline's values contains a quote character), numeric cells are bare. -/
def csvQuote (s : String) : String := "\"" ++ s ++ "\""

/-- The header row `json2csv` emits for the four configured fields. -/
def csvHeaderLine : String :=
  csvQuote "Member State" ++ "," ++ csvQuote "VAT Rate" ++ ","
    ++ csvQuote "Taxable Amount (EUR)" ++ "," ++ csvQuote "VAT Amount (EUR)"

/-- One data row: the four configured fields of the row — the internal
`Order Count` field is excluded by the `csvFields` list
(`generate-ioss-report.js` lines 184-189). -/
def renderAggRow (r : AggRow) : String :=
  csvQuote r.memberState ++ "," ++ csvQuote r.vatRateStr ++ ","
    ++ jsNumToString r.taxableAmount ++ "," ++ jsNumToString r.vatAmount

/-- The lines of the `json2csv` output: header then one line per row. -/
def generateCSVLines (rows : List AggRow) : List String :=
  csvHeaderLine :: rows.map renderAggRow

/-- The `reportHeader` template prepended to the CSV
(`generate-ioss-report.js` lines 212-217), with the `Generated on`
timestamp as a parameter. -/
def reportPreambleLines (generatedOnIso : String) : List String :=
  ["# EU IOSS Monthly Return - December 2025",
   "# Generated on: " ++ generatedOnIso,
   "# Reporting Period: December 2025",
   "# IOSS ID: [To be filled by operator]",
   "# "]

/-- `generateCSVReport(data, outputPath)` (file content): the comment
preamble followed by the `json2csv` output, newline-separated. -/
def generateCSVReport (rows : List AggRow) (generatedOnIso : String) : String :=
  String.intercalate "\n" (reportPreambleLines generatedOnIso ++ generateCSVLines rows)

/-- Modelled from the words of claim C8: an artifact consisting of the
bare header row `Member State,VAT Rate,Taxable Amount (EUR),VAT Amount (EUR)`
followed by one data row per aggregate with the monetary columns printed
with exactly 2 decimal digits.  Stated for comparison with the artifact
the code produces. -/
def claimMoney2dp (q : ℚ) : String :=
  let n : Int := (q * 100 + mkRat 1 2).floor
  let sign := if n < 0 then "-" else ""
  let m := n.natAbs
  let fp := m % 100
  sign ++ toString (m / 100) ++ "."
    ++ (if fp < 10 then "0" ++ toString fp else toString fp)

/-- Modelled from the words of claim C8: the claimed report artifact. -/
def claimRenderCSV (rows : List AggRow) : String :=
  String.intercalate "\n"
    (("Member State,VAT Rate,Taxable Amount (EUR),VAT Amount (EUR)")
      :: rows.map (fun r => r.memberState ++ "," ++ r.vatRateStr ++ ","
        ++ claimMoney2dp r.taxableAmount ++ "," ++ claimMoney2dp r.vatAmount))

/-- The two-order fixture: one US-to-Germany order of 119 and one
China-to-France order of 100. -/
def fixtureOrders : List SynOrder :=
  [⟨"ORD-1", "US", "DE", 119⟩, ⟨"ORD-2", "CN", "FR", 100⟩]

end VatPilot

namespace VatPilot

theorem addOrderToAgg_keys (acc : List CountryAgg) (o : SynOrder) :
    (addOrderToAgg acc o).map (·.memberState) =
      if acc.any (fun c => c.memberState = o.customer_country) then
        acc.map (·.memberState)
      else
        acc.map (·.memberState) ++ [o.customer_country] := by
  have hupd : ∀ l : List CountryAgg,
      (l.map (fun c =>
        if c.memberState = o.customer_country then
          { c with taxableAmount := c.taxableAmount + o.order_value_eur,
                   vatAmount := c.vatAmount
                     + calculateVATAmount o.order_value_eur (getVATRate o.customer_country),
                   orderCount := c.orderCount + 1 }
        else c)).map (·.memberState) = l.map (·.memberState) := by
    intro l
    rw [List.map_map]
    apply List.map_congr_left
    intro c _
    by_cases hc : c.memberState = o.customer_country <;> simp [hc]
  have hred : addOrderToAgg acc o =
      ((if acc.any (fun c => c.memberState = o.customer_country) then acc
        else acc ++ [⟨o.customer_country, getVATRate o.customer_country, 0, 0, 0⟩]).map
        (fun c =>
          if c.memberState = o.customer_country then
            { c with taxableAmount := c.taxableAmount + o.order_value_eur,
                     vatAmount := c.vatAmount
                       + calculateVATAmount o.order_value_eur (getVATRate o.customer_country),
                     orderCount := c.orderCount + 1 }
          else c)) := rfl
  rw [hred]
  by_cases h : acc.any (fun c => c.memberState = o.customer_country)
  · rw [if_pos h, if_pos h]
    exact hupd acc
  · rw [if_neg h, if_neg h]
    have h2 := hupd (acc ++ [⟨o.customer_country, getVATRate o.customer_country, 0, 0, 0⟩])
    rw [h2, List.map_append]
    rfl

theorem foldl_addOrderToAgg_keys_nodup (orders : List SynOrder) (acc : List CountryAgg)
    (h : (acc.map (·.memberState)).Nodup) :
    ((orders.foldl addOrderToAgg acc).map (·.memberState)).Nodup := by
  induction orders generalizing acc with
  | nil => exact h
  | cons o os ih =>
    apply ih
    rw [addOrderToAgg_keys]
    by_cases hx : acc.any (fun c => c.memberState = o.customer_country)
    · rw [if_pos hx]; exact h
    · rw [if_neg hx]
      have hnot : o.customer_country ∉ acc.map (·.memberState) := by
        intro hmem
        rcases List.mem_map.mp hmem with ⟨c, hc, hck⟩
        exact hx (List.any_eq_true.mpr ⟨c, hc, by simp [hck]⟩)
      rw [List.nodup_append]
      exact ⟨h, List.nodup_singleton _, by
        intro x hx1 hx2
        rw [List.mem_singleton] at hx2
        exact hnot (hx2 ▸ hx1)⟩

set_option maxRecDepth 10000 in
/-- Counterexample to C8 as stated: on the two-order fixture the
artifact `generateCSVReport` writes is not the claimed bare header plus
two-decimal rows — the file starts with a `#` comment line, the header
and string cells are double-quoted, and the integral amount 100 prints
as `100`, not `100.00`. -/
theorem c8_artifact_differs_from_claim :
    generateCSVReport (processOrdersForIOSS fixtureOrders) "2025-12-01T00:00:00.000Z" ≠
      claimRenderCSV (processOrdersForIOSS fixtureOrders) ∧
    (generateCSVReport (processOrdersForIOSS fixtureOrders)
        "2025-12-01T00:00:00.000Z").take 40 =
      "# EU IOSS Monthly Return - December 2025" ∧
    jsNumToString (100 : ℚ) = "100" := by
  refine ⟨by decide, by decide, by decide⟩

set_option maxRecDepth 10000 in
/-- C8 amended: the artifact consists of the five-line `#`-comment
preamble, then the header row for exactly the four configured fields
with the internal order-count column omitted — `json2csv` double-quotes
the header names and string cells — then one data row per jurisdiction
aggregate sorted ascending by jurisdiction code (pairwise distinct), the
VAT rate rendered as a percentage string, and the monetary columns
rounded to 2 decimals but serialized as plain JavaScript numbers
(trailing fractional zeros dropped). -/
theorem c8_artifact_structure :
    (∀ orders : List SynOrder, List.Sorted rowLe (processOrdersForIOSS orders)) ∧
    (∀ orders : List SynOrder,
      ((processOrdersForIOSS orders).map (·.memberState)).Nodup) ∧
    processOrdersForIOSS fixtureOrders =
      [⟨"DE", "19%", 119, mkRat 2261 100, 1⟩, ⟨"FR", "20%", 100, 20, 1⟩] ∧
    generateCSVReport (processOrdersForIOSS fixtureOrders) "2025-12-01T00:00:00.000Z" =
      "# EU IOSS Monthly Return - December 2025\n"
        ++ "# Generated on: 2025-12-01T00:00:00.000Z\n"
        ++ "# Reporting Period: December 2025\n"
        ++ "# IOSS ID: [To be filled by operator]\n"
        ++ "# \n"
        ++ "\"Member State\",\"VAT Rate\",\"Taxable Amount (EUR)\",\"VAT Amount (EUR)\"\n"
        ++ "\"DE\",\"19%\",119,22.61\n"
        ++ "\"FR\",\"20%\",100,20" := by
  refine ⟨?_, ?_, by decide, by decide⟩
  · intro orders
    exact List.sorted_insertionSort rowLe _
  · intro orders
    unfold processOrdersForIOSS
    have hperm := (List.perm_insertionSort rowLe
      (((orders.filter isIOSSEligible).foldl addOrderToAgg []).map toAggRow)).map
      (fun r : AggRow => r.memberState)
    rw [(hperm.nodup_iff)]
    rw [List.map_map]
    exact foldl_addOrderToAgg_keys_nodup _ [] (by simp)

end VatPilot
